import Mathlib

/-!
Verification of the state-update-and-audit-log core of the Terraform-Python-API
service: an in-memory counter/message state, a POST /update handler that merges
optional fields and appends an audit record, an optional static-token access
guard, and a paginated reverse-chronological log listing backed by a single
append-only table.

The embedding follows `src/app/models.py`, `src/app/state.py`,
`src/app/routes.py`, `src/app/auth.py` and `src/app/database.py`.  SQLite and
the Python `json` module are external libraries; they are modelled by explicit
Lean functions (an append-only row list with an auto-incrementing id counter,
and a serializer/parser pair reproducing `json.dumps`/`json.loads` on the
payload shape this program stores).
-/

namespace PyApi

/-- The application state: `state.py` holds a dict with keys counter and
message; `models.py` `StateModel` types them as int and str. -/
structure StateModel where
  counter : Int
  message : String
deriving DecidableEq, Repr

/-- `models.py` `UpdateRequest`: both fields optional (None when absent). -/
structure UpdateRequest where
  counter : Option Int
  message : Option String
deriving DecidableEq, Repr

/-- `models.py` `UpdateRequest.validate_at_least_one_field`: the request is
valid unless both fields are None. -/
def validRequest (req : UpdateRequest) : Bool :=
  !(req.counter.isNone && req.message.isNone)

/-- Error message raised by `validate_at_least_one_field` in `models.py`. -/
def validationDetail : String :=
  "At least one field (counter or message) must be provided"

/- ### JSON serialization model

`database.py` stores `json.dumps({"counter": c, "message": m})` and reads it
back with `json.loads`.  The functions below model the CPython `json` module
(default options, `ensure_ascii=True`) restricted to this payload shape. -/

/-- Decimal digit characters of a natural number, most significant first,
as the Python int serialization prints them. -/
def natToChars (n : Nat) : List Char :=
  if n = 0 then ['0'] else ((Nat.digits 10 n).map Nat.digitChar).reverse

/-- Python serializes a negative int with a leading minus sign. -/
def intToChars (i : Int) : List Char :=
  match i with
  | Int.ofNat n => natToChars n
  | Int.negSucc m => '-' :: natToChars (m + 1)

/-- Lowercase hexadecimal digit, as the CPython json encoder emits in
backslash-u escapes. -/
def hexChar (n : Nat) : Char :=
  if n < 10 then Char.ofNat (48 + n) else Char.ofNat (87 + n)

/-- Four hex digits of a value below 0x10000, most significant first. -/
def hexDigits4 (v : Nat) : List Char :=
  [hexChar (v / 4096 % 16), hexChar (v / 256 % 16), hexChar (v / 16 % 16), hexChar (v % 16)]

/-- CPython `json.dumps` string escaping with `ensure_ascii=True`: quote and
backslash get two-character escapes, the five short control escapes are used,
any other character outside 0x20..0x7E becomes a backslash-u escape, with a
surrogate pair for characters above 0xFFFF. -/
def escapeChar (c : Char) : List Char :=
  if c = '"' then ['\\', '"']
  else if c = '\\' then ['\\', '\\']
  else if c.toNat < 32 then
    if c = '\x08' then ['\\', 'b']
    else if c = '\t' then ['\\', 't']
    else if c = '\n' then ['\\', 'n']
    else if c = '\x0c' then ['\\', 'f']
    else if c = '\r' then ['\\', 'r']
    else '\\' :: 'u' :: hexDigits4 c.toNat
  else if c.toNat ≤ 126 then [c]
  else if c.toNat ≤ 65535 then '\\' :: 'u' :: hexDigits4 c.toNat
  else
    ('\\' :: 'u' :: hexDigits4 (55296 + (c.toNat - 65536) / 1024)) ++
      ('\\' :: 'u' :: hexDigits4 (56320 + (c.toNat - 65536) % 1024))

/-- Escape every character of a string body. -/
def escapeList : List Char → List Char
  | [] => []
  | c :: cs => escapeChar c ++ escapeList cs

/-- `json.dumps({"counter": c, "message": m})` with the CPython default
separators and insertion-ordered keys, as built in `routes.py`. -/
def dumpsState (s : StateModel) : String :=
  String.mk ("\x7b\"counter\": ".data ++ intToChars s.counter ++
    ", \"message\": \"".data ++ escapeList s.message.data ++ "\"\x7d".data)

/-- Value of one hexadecimal digit character, either case (as `json.loads`
accepts). -/
def hexVal (c : Char) : Option Nat :=
  if 48 ≤ c.toNat ∧ c.toNat ≤ 57 then some (c.toNat - 48)
  else if 97 ≤ c.toNat ∧ c.toNat ≤ 102 then some (c.toNat - 87)
  else if 65 ≤ c.toNat ∧ c.toNat ≤ 70 then some (c.toNat - 55)
  else none

/-- Value of a four-hex-digit escape body. -/
def hex4 (a b c d : Char) : Option Nat :=
  (hexVal a).bind fun x => (hexVal b).bind fun y => (hexVal c).bind fun z =>
    (hexVal d).map fun w => 4096 * x + 256 * y + 16 * z + w

/-- The two-character escapes understood by the `json.loads` scanner,
keyed by the character after the backslash. -/
def escCode (e : Char) : Option Char :=
  if e = '"' then some '"'
  else if e = '\\' then some '\\'
  else if e = '/' then some '/'
  else if e = 'b' then some '\x08'
  else if e = 'f' then some '\x0c'
  else if e = 'n' then some '\n'
  else if e = 'r' then some '\r'
  else if e = 't' then some '\t'
  else none

/-- One step of the `json.loads` string scanner: at the closing quote it
yields `(none, rest)`; otherwise it decodes one character — plain, or a
two-character escape, or a backslash-u escape with surrogate-pair combination
— and yields it with the remaining input.  (CPython keeps a lone surrogate as
a str character; Lean `Char` cannot represent surrogates, so those branches
reject instead — they are unreachable on the canonical encoder output.) -/
def scanStep : List Char → Option (Option Char × List Char)
  | [] => none
  | c :: rest =>
    if c = '"' then some (none, rest)
    else if c ≠ '\\' then some (some c, rest)
    else
      match rest with
      | [] => none
      | e :: r =>
        if e = 'u' then
          match r with
          | a :: b :: c2 :: d :: r2 =>
            match hex4 a b c2 d with
            | none => none
            | some v =>
              if 55296 ≤ v ∧ v ≤ 56319 then
                match r2 with
                | s1 :: s2 :: a2 :: b2 :: c3 :: d2 :: r3 =>
                  if s1 = '\\' ∧ s2 = 'u' then
                    match hex4 a2 b2 c3 d2 with
                    | none => none
                    | some w =>
                      if 56320 ≤ w ∧ w ≤ 57343 then
                        some (some (Char.ofNat (65536 + (v - 55296) * 1024 + (w - 56320))), r3)
                      else none
                  else none
                | _ => none
              else some (some (Char.ofNat v), r2)
          | _ => none
        else
          match escCode e with
          | none => none
          | some ch => some (some ch, r)

/-- Scanner loop: iterate `scanStep` until the closing quote, collecting the
decoded characters.  The fuel only bounds iteration; every step consumes at
least one input character, so the input length is always enough fuel. -/
def parseStrAux : Nat → List Char → Option (List Char × List Char)
  | 0, _ => none
  | fuel + 1, l =>
    match scanStep l with
    | none => none
    | some (none, rest) => some ([], rest)
    | some (some ch, rest) => (parseStrAux fuel rest).map (fun p => (ch :: p.1, p.2))

/-- The `json.loads` string scanner: consumes characters up to the closing
quote and returns the decoded body with the rest of the input after the
closing quote. -/
def parseStringChars (l : List Char) : Option (List Char × List Char) :=
  parseStrAux l.length l

/-- Numeric value of a decimal digit character. -/
def charDigit (c : Char) : Nat := c.toNat - 48

/-- Consume a nonempty run of decimal digits, most significant first. -/
def parseNatChars (l : List Char) : Option (Nat × List Char) :=
  let ds := l.takeWhile (fun c => c.isDigit)
  if ds.isEmpty then none
  else some (Nat.ofDigits 10 ((ds.map charDigit).reverse), l.dropWhile (fun c => c.isDigit))

/-- Consume an optionally-signed decimal integer, as `json.loads` parses the
counter field. -/
def parseIntChars (l : List Char) : Option (Int × List Char) :=
  match l with
  | [] => none
  | c :: rest =>
    if c = '-' then (parseNatChars rest).map (fun p => (-(p.1 : Int), p.2))
    else (parseNatChars (c :: rest)).map (fun p => ((p.1 : Int), p.2))

/-- Consume an expected literal run of characters. -/
def stripLit : List Char → List Char → Option (List Char)
  | [], s => some s
  | _ :: _, [] => none
  | c :: cs, d :: ds => if c = d then stripLit cs ds else none

/-- `json.loads` applied to the canonical object shape stored by
`database.py`: an object with an int `counter` field and a str `message`
field, in that order with default separators.  Returns none on any input
that is not of that shape. -/
def loadsState (s : String) : Option StateModel := do
  let r1 ← stripLit ("\x7b\"counter\": ".data) s.data
  let (i, r2) ← parseIntChars r1
  let r3 ← stripLit (", \"message\": \"".data) r2
  let (m, r4) ← parseStringChars r3
  if r4 = ['\x7d'] then pure { counter := i, message := String.mk m } else none

/- ### Audit log store (`database.py` over SQLite) -/

/-- One row of the `logs` table: auto-assigned integer id, timestamp, and the
two JSON-serialized state snapshots stored as TEXT.  Timestamps are modelled
as naturals ordered as the ISO-8601 UTC strings of a monotone clock are. -/
structure LogRow where
  id : Nat
  timestamp : Nat
  old_value : String
  new_value : String
deriving DecidableEq, Repr

/-- The `logs` table plus the SQLite AUTOINCREMENT counter, which hands out
strictly larger ids than any ever used and starts at 1. -/
structure LogDb where
  rows : List LogRow
  nextId : Nat
deriving DecidableEq, Repr

/-- `database.py` `init_database`: CREATE TABLE IF NOT EXISTS — creates the
empty table when the database is absent and leaves an existing table as is. -/
def init_database : Option LogDb → LogDb
  | none => { rows := [], nextId := 1 }
  | some db => db

/-- Iterated startup initialization: call `init_database` n times, keeping
the resulting database file in between. -/
def init_many : Nat → Option LogDb → Option LogDb
  | 0, t => t
  | n + 1, t => some (init_database (init_many n t))

/-- `database.py` `log_update`: INSERT one row whose `old_value` and
`new_value` columns hold `json.dumps` of the snapshots, with a store-assigned
id and timestamp. -/
def log_update (old_value new_value : StateModel) (ts : Nat) (db : LogDb) : LogDb :=
  { rows := db.rows ++ [⟨db.nextId, ts, dumpsState old_value, dumpsState new_value⟩],
    nextId := db.nextId + 1 }

/-- One element of the `logs` list returned by `get_logs`: the row with the
JSON columns passed through `json.loads`. -/
structure LogEntryOut where
  id : Nat
  timestamp : Nat
  old_value : Option StateModel
  new_value : Option StateModel
deriving DecidableEq, Repr

/-- Row-to-entry conversion performed in the result loop of `get_logs`. -/
def entryOfRow (r : LogRow) : LogEntryOut :=
  { id := r.id, timestamp := r.timestamp,
    old_value := loadsState r.old_value, new_value := loadsState r.new_value }

/-- Comparison used by ORDER BY timestamp DESC. -/
def tsDesc (a b : LogRow) : Prop := b.timestamp ≤ a.timestamp

instance : DecidableRel tsDesc := fun a b => Nat.decLe b.timestamp a.timestamp

instance : IsTotal LogRow tsDesc := ⟨fun a b => Nat.le_total b.timestamp a.timestamp⟩

instance : IsTrans LogRow tsDesc := ⟨fun _ _ _ hab hbc => Nat.le_trans hbc hab⟩

/-- The dictionary returned by `database.py` `get_logs`. -/
structure LogsPage where
  logs : List LogEntryOut
  page : Nat
  limit : Nat
  total : Nat
deriving DecidableEq, Repr

/-- `database.py` `get_logs`: offset = (page-1)*limit, total = COUNT(*), rows
ordered by timestamp descending (SQL leaves tie order unspecified; the model
fixes one admissible order by sorting), then LIMIT/OFFSET and the JSON parse
of each returned row. -/
def get_logs (db : LogDb) (page : Nat) (limit : Nat) : LogsPage :=
  let offset := (page - 1) * limit
  let total := db.rows.length
  let sorted := List.insertionSort tsDesc db.rows
  let pageRows := (sorted.drop offset).take limit
  { logs := pageRows.map entryOfRow, page := page, limit := limit, total := total }

/- ### Access guard (`auth.py`) -/

/-- Outcome of the dependency `verify_api_key`: pass, or an HTTPException
with a status code and detail string. -/
inductive AuthResult where
  | allow
  | deny (status : Nat) (detail : String)
deriving DecidableEq, Repr

/-- `auth.py` `verify_api_key` as a function of the configured secret
(API_KEY environment variable, None when unset) and the X-API-KEY header
value (None when absent). -/
def verify_api_key (expected_api_key : Option String) (x_api_key : Option String) : AuthResult :=
  match expected_api_key with
  | none => .allow
  | some secret =>
    match x_api_key with
    | none => .deny 401 "API key is required. Please provide X-API-KEY header."
    | some k => if k ≠ secret then .deny 401 "Invalid API key." else .allow

/- ### Request handler (`routes.py`) -/

/-- The process-wide mutable data the handlers touch: the in-memory state
dict of `state.py` and the SQLite log database. -/
structure AppState where
  state : StateModel
  db : LogDb
deriving DecidableEq, Repr

/-- Initial in-memory state from `state.py`. -/
def initial_state : StateModel := { counter := 0, message := "initial" }

/-- Fresh process over a fresh database file. -/
def initialApp : AppState := { state := initial_state, db := init_database none }

/-- The merge in `routes.py` lines 71-74: each field that is not None
replaces the stored field, each absent field is left untouched. -/
def applyUpdate (s : StateModel) (req : UpdateRequest) : StateModel :=
  { counter := req.counter.getD s.counter, message := req.message.getD s.message }

/-- Body of the POST /update response. -/
structure UpdateResponse where
  state : StateModel
deriving DecidableEq, Repr

/-- `routes.py` `update_state` body on the successful path: capture the
previous state, merge the request into the shared state, capture the new
state, append the log row, and answer with the new state. -/
def update_state (req : UpdateRequest) (ts : Nat) (app : AppState) : UpdateResponse × AppState :=
  let previous_state := app.state
  let new_state := applyUpdate previous_state req
  let db' := log_update previous_state new_state ts app.db
  ({ state := new_state }, { state := new_state, db := db' })

/-- `routes.py` `update_state` when the `log_update` INSERT raises: the
shared state dict was already mutated in place and there is no handler, so
the exception propagates with the mutation kept and no row appended. -/
def update_state_logFail (req : UpdateRequest) (app : AppState) : AppState :=
  { state := applyUpdate app.state req, db := app.db }

/-- Overall outcome of a POST /update request. -/
inductive UpdateOutcome where
  | ok (resp : UpdateResponse)
  | clientError (status : Nat) (detail : String)
  | serverError
deriving DecidableEq, Repr

/-- The full POST /update pipeline: the `verify_api_key` dependency, the
pydantic validator of `models.py` (surfaced as HTTP 400 by the handler in
`main.py`), then the handler body.  `logOk` says whether the SQLite INSERT
succeeds; when it fails the exception escapes the handler (500-equivalent)
after the in-memory mutation. -/
def post_update (expected_api_key x_api_key : Option String) (req : UpdateRequest)
    (ts : Nat) (logOk : Bool) (app : AppState) : UpdateOutcome × AppState :=
  match verify_api_key expected_api_key x_api_key with
  | .deny s d => (.clientError s d, app)
  | .allow =>
    if validRequest req then
      if logOk then
        let (resp, app') := update_state req ts app
        (.ok resp, app')
      else (.serverError, update_state_logFail req app)
    else (.clientError 400 validationDetail, app)

/-- A sequence of successful update requests with their store-assigned
timestamps, run left to right; collects the responses. -/
def runUpdates : List (UpdateRequest × Nat) → AppState → List UpdateResponse × AppState
  | [], app => ([], app)
  | (req, ts) :: rest, app =>
    let (resp, app') := update_state req ts app
    let (resps, appF) := runUpdates rest app'
    (resp :: resps, appF)

/- ### Round trip of the JSON model -/

theorem hexVal_hexChar (d : Nat) (h : d < 16) : hexVal (hexChar d) = some d := by
  revert d
  decide

theorem hex4_hexDigits4 {v : Nat} (h : v < 65536) :
    hex4 (hexChar (v / 4096 % 16)) (hexChar (v / 256 % 16)) (hexChar (v / 16 % 16))
      (hexChar (v % 16)) = some v := by
  rw [hex4, hexVal_hexChar _ (Nat.mod_lt _ (by norm_num)),
    hexVal_hexChar _ (Nat.mod_lt _ (by norm_num)),
    hexVal_hexChar _ (Nat.mod_lt _ (by norm_num)),
    hexVal_hexChar _ (Nat.mod_lt _ (by norm_num))]
  simp only [Option.some_bind, Option.map_some']
  exact congrArg some (by omega)

theorem scanStep_u {v : Nat} (hv : v < 65536) (hs : v < 55296 ∨ 56320 ≤ v) (l : List Char) :
    scanStep ('\\' :: 'u' :: (hexDigits4 v ++ l)) = some (some (Char.ofNat v), l) := by
  have hns : ¬(55296 ≤ v ∧ v ≤ 56319) := by omega
  simp [scanStep, hexDigits4, hex4_hexDigits4 hv, hns]

theorem scanStep_pair {hi lo : Nat} (hhi : 55296 ≤ hi ∧ hi ≤ 56319)
    (hlo : 56320 ≤ lo ∧ lo ≤ 57343) (l : List Char) :
    scanStep ('\\' :: 'u' :: (hexDigits4 hi ++ '\\' :: 'u' :: (hexDigits4 lo ++ l))) =
      some (some (Char.ofNat (65536 + (hi - 55296) * 1024 + (lo - 56320))), l) := by
  have h1 : hi < 65536 := by omega
  have h2 : lo < 65536 := by omega
  simp [scanStep, hexDigits4, hex4_hexDigits4 h1, hex4_hexDigits4 h2, hhi, hlo]

theorem scanStep_escapeChar (c : Char) (l : List Char) :
    scanStep (escapeChar c ++ l) = some (some c, l) := by
  have hvalid : c.toNat < 55296 ∨ (57344 ≤ c.toNat ∧ c.toNat < 1114112) := c.valid
  by_cases h1 : c = '"'
  · subst h1; simp [escapeChar, scanStep, escCode]
  by_cases h2 : c = '\\'
  · subst h2; simp [escapeChar, scanStep, escCode]
  by_cases h3 : c.toNat < 32
  · by_cases hb : c = '\x08'
    · subst hb; simp [escapeChar, scanStep, escCode]
    by_cases ht : c = '\t'
    · subst ht; simp [escapeChar, scanStep, escCode]
    by_cases hn : c = '\n'
    · subst hn; simp [escapeChar, scanStep, escCode]
    by_cases hf : c = '\x0c'
    · subst hf; simp [escapeChar, scanStep, escCode]
    by_cases hr : c = '\r'
    · subst hr; simp [escapeChar, scanStep, escCode]
    · have he : escapeChar c = '\\' :: 'u' :: hexDigits4 c.toNat := by
        unfold escapeChar
        rw [if_neg h1, if_neg h2, if_pos h3, if_neg hb, if_neg ht, if_neg hn, if_neg hf, if_neg hr]
      rw [he, List.cons_append, List.cons_append,
        scanStep_u (by omega) (by omega) l, Char.ofNat_toNat]
  by_cases h4 : c.toNat ≤ 126
  · have he : escapeChar c = [c] := by
      unfold escapeChar
      rw [if_neg h1, if_neg h2, if_neg h3, if_pos h4]
    rw [he]
    simp [scanStep, h1, h2]
  by_cases h5 : c.toNat ≤ 65535
  · have he : escapeChar c = '\\' :: 'u' :: hexDigits4 c.toNat := by
      unfold escapeChar
      rw [if_neg h1, if_neg h2, if_neg h3, if_neg h4, if_pos h5]
    rw [he, List.cons_append, List.cons_append,
      scanStep_u (by omega) (by omega) l, Char.ofNat_toNat]
  · have he : escapeChar c =
        ('\\' :: 'u' :: hexDigits4 (55296 + (c.toNat - 65536) / 1024)) ++
          ('\\' :: 'u' :: hexDigits4 (56320 + (c.toNat - 65536) % 1024)) := by
      unfold escapeChar
      rw [if_neg h1, if_neg h2, if_neg h3, if_neg h4, if_neg h5]
    rw [he]
    have hd : (c.toNat - 65536) / 1024 ≤ 1023 := by omega
    have hm : (c.toNat - 65536) % 1024 ≤ 1023 := by omega
    rw [show ((('\\' :: 'u' :: hexDigits4 (55296 + (c.toNat - 65536) / 1024)) ++
        ('\\' :: 'u' :: hexDigits4 (56320 + (c.toNat - 65536) % 1024))) ++ l) =
        ('\\' :: 'u' :: (hexDigits4 (55296 + (c.toNat - 65536) / 1024) ++
          '\\' :: 'u' :: (hexDigits4 (56320 + (c.toNat - 65536) % 1024) ++ l))) by simp]
    rw [scanStep_pair (by omega) (by omega) l]
    have harith : 65536 + (55296 + (c.toNat - 65536) / 1024 - 55296) * 1024 +
        (56320 + (c.toNat - 65536) % 1024 - 56320) = c.toNat := by omega
    rw [harith, Char.ofNat_toNat]

theorem one_le_length_escapeChar (c : Char) : 1 ≤ (escapeChar c).length := by
  unfold escapeChar
  repeat' split
  all_goals simp [hexDigits4]

theorem le_length_escapeList (m : List Char) : m.length ≤ (escapeList m).length := by
  induction m with
  | nil => simp [escapeList]
  | cons c cs ih =>
    have h1 := one_le_length_escapeChar c
    simp only [escapeList, List.length_append, List.length_cons]
    omega

theorem parseStrAux_escapeList (m : List Char) :
    ∀ (fuel : Nat) (r : List Char), m.length < fuel →
      parseStrAux fuel (escapeList m ++ '"' :: r) = some (m, r) := by
  induction m with
  | nil =>
    intro fuel r hf
    match fuel, hf with
    | f + 1, _ => simp [escapeList, parseStrAux, scanStep]
  | cons c cs ih =>
    intro fuel r hf
    match fuel, hf with
    | f + 1, hf =>
      have hlt : cs.length < f := by
        simp only [List.length_cons] at hf
        omega
      rw [show escapeList (c :: cs) ++ '"' :: r = escapeChar c ++ (escapeList cs ++ '"' :: r) by
        simp [escapeList]]
      rw [parseStrAux, scanStep_escapeChar c (escapeList cs ++ '"' :: r)]
      simp [ih f r hlt]

theorem parseStringChars_escapeList (m : List Char) (r : List Char) :
    parseStringChars (escapeList m ++ '"' :: r) = some (m, r) := by
  apply parseStrAux_escapeList
  have h := le_length_escapeList m
  simp only [List.length_append, List.length_cons]
  omega

theorem charDigit_digitChar (d : Nat) (h : d < 10) : charDigit (Nat.digitChar d) = d := by
  revert d
  decide

theorem digitChar_isDigit (d : Nat) (h : d < 10) : (Nat.digitChar d).isDigit = true := by
  revert d
  decide

theorem natToChars_ne_nil (n : Nat) : natToChars n ≠ [] := by
  unfold natToChars
  split
  · simp
  · simp [Nat.digits_ne_nil_iff_ne_zero, *]

theorem natToChars_all_digit {n : Nat} {c : Char} (h : c ∈ natToChars n) : c.isDigit = true := by
  unfold natToChars at h
  split at h
  · simp at h
    subst h
    decide
  · simp only [List.mem_reverse, List.mem_map] at h
    obtain ⟨d, hd, rfl⟩ := h
    exact digitChar_isDigit d (Nat.digits_lt_base (by norm_num) hd)

theorem takeWhile_append_all {p : Char → Bool} {l : List Char} (h : ∀ c ∈ l, p c = true)
    {d : Char} (hd : p d = false) (r : List Char) :
    (l ++ d :: r).takeWhile p = l := by
  induction l with
  | nil => simp [List.takeWhile_cons, hd]
  | cons c cs ih =>
    rw [List.cons_append, List.takeWhile_cons, if_pos (h c (by simp))]
    rw [ih (fun x hx => h x (by simp [hx]))]

theorem dropWhile_append_all {p : Char → Bool} {l : List Char} (h : ∀ c ∈ l, p c = true)
    {d : Char} (hd : p d = false) (r : List Char) :
    (l ++ d :: r).dropWhile p = d :: r := by
  induction l with
  | nil => simp [List.dropWhile_cons, hd]
  | cons c cs ih =>
    rw [List.cons_append, List.dropWhile_cons, if_pos (h c (by simp))]
    exact ih (fun x hx => h x (by simp [hx]))

theorem ofDigits_natToChars (n : Nat) :
    Nat.ofDigits 10 (((natToChars n).map charDigit).reverse) = n := by
  by_cases h : n = 0
  · subst h
    simp [natToChars, charDigit, Nat.ofDigits]
  · unfold natToChars
    rw [if_neg h, List.map_reverse, List.reverse_reverse, List.map_map]
    have hmap : (Nat.digits 10 n).map (charDigit ∘ Nat.digitChar) = Nat.digits 10 n := by
      have : ∀ l : List Nat, (∀ d ∈ l, d < 10) → l.map (charDigit ∘ Nat.digitChar) = l := by
        intro l hl
        induction l with
        | nil => rfl
        | cons d ds ih =>
          simp only [List.map_cons, Function.comp_apply,
            charDigit_digitChar d (hl d (by simp))]
          rw [ih (fun x hx => hl x (by simp [hx]))]
      exact this _ (fun d hd => Nat.digits_lt_base (by norm_num) hd)
    rw [hmap, Nat.ofDigits_digits]

theorem parseNatChars_natToChars (n : Nat) {d : Char} (hd : d.isDigit = false) (r : List Char) :
    parseNatChars (natToChars n ++ d :: r) = some (n, d :: r) := by
  unfold parseNatChars
  rw [takeWhile_append_all (fun c hc => natToChars_all_digit hc) hd,
    dropWhile_append_all (fun c hc => natToChars_all_digit hc) hd]
  rw [if_neg (by simp [List.isEmpty_iff, natToChars_ne_nil n])]
  rw [ofDigits_natToChars]

theorem isDigit_ne_minus {c : Char} (h : c.isDigit = true) : c ≠ '-' := by
  intro hc
  subst hc
  simp [Char.isDigit] at h

theorem parseIntChars_intToChars (i : Int) {d : Char} (hd : d.isDigit = false)
    (r : List Char) : parseIntChars (intToChars i ++ d :: r) = some (i, d :: r) := by
  match i with
  | Int.ofNat n =>
    rw [show intToChars (Int.ofNat n) = natToChars n from rfl]
    cases hnc : natToChars n with
    | nil => exact absurd hnc (natToChars_ne_nil n)
    | cons c cs =>
      have hcd : c.isDigit = true := natToChars_all_digit (by rw [hnc]; simp)
      rw [List.cons_append, parseIntChars, if_neg (isDigit_ne_minus hcd),
        ← List.cons_append, ← hnc, parseNatChars_natToChars n hd r]
      rfl
  | Int.negSucc m =>
    rw [show intToChars (Int.negSucc m) = '-' :: natToChars (m + 1) from rfl,
      List.cons_append, parseIntChars, if_pos rfl, parseNatChars_natToChars (m + 1) hd r]
    simp only [Option.map_some', Option.some.injEq, Prod.mk.injEq, and_true]
    rw [Int.negSucc_eq]
    push_cast
    ring

theorem stripLit_append (l r : List Char) : stripLit l (l ++ r) = some r := by
  induction l with
  | nil => rfl
  | cons c cs ih => simp [stripLit, ih]

theorem loadsState_dumpsState (s : StateModel) : loadsState (dumpsState s) = some s := by
  obtain ⟨c, m⟩ := s
  show loadsState (dumpsState ⟨c, m⟩) = some ⟨c, m⟩
  unfold loadsState dumpsState
  rw [show (String.mk ("\x7b\"counter\": ".data ++ intToChars c ++
      ", \"message\": \"".data ++ escapeList m.data ++ "\"\x7d".data)).data =
      "\x7b\"counter\": ".data ++ (intToChars c ++
        (", \"message\": \"".data ++ (escapeList m.data ++ "\"\x7d".data))) by simp]
  rw [stripLit_append]
  simp only [Option.bind_eq_bind, Option.some_bind]
  rw [show (", \"message\": \"".data ++ (escapeList m.data ++ "\"\x7d".data)) =
      ',' :: (" \"message\": \"".data ++ (escapeList m.data ++ "\"\x7d".data)) from rfl]
  rw [parseIntChars_intToChars c (by decide) _]
  simp only [Option.bind_eq_bind, Option.some_bind]
  rw [show (',' :: (" \"message\": \"".data ++ (escapeList m.data ++ "\"\x7d".data))) =
      ", \"message\": \"".data ++ (escapeList m.data ++ "\"\x7d".data) from rfl]
  rw [stripLit_append]
  simp only [Option.bind_eq_bind, Option.some_bind]
  rw [show (escapeList m.data ++ "\"\x7d".data) = escapeList m.data ++ '"' :: ['\x7d'] from rfl]
  rw [parseStringChars_escapeList]
  simp

/- ### Handler-level helper lemmas -/

theorem update_state_eq (req : UpdateRequest) (ts : Nat) (app : AppState) :
    update_state req ts app =
      (⟨applyUpdate app.state req⟩,
        ⟨applyUpdate app.state req,
          log_update app.state (applyUpdate app.state req) ts app.db⟩) := rfl

theorem runUpdates_cons (req : UpdateRequest) (ts : Nat) (rest : List (UpdateRequest × Nat))
    (app : AppState) :
    runUpdates ((req, ts) :: rest) app =
      ((update_state req ts app).1 :: (runUpdates rest (update_state req ts app).2).1,
        (runUpdates rest (update_state req ts app).2).2) := rfl

theorem runUpdates_state (l : List (UpdateRequest × Nat)) (app : AppState) :
    (runUpdates l app).2.state = (l.map Prod.fst).foldl applyUpdate app.state := by
  induction l generalizing app with
  | nil => rfl
  | cons p rest ih =>
    obtain ⟨req, ts⟩ := p
    rw [runUpdates_cons, update_state_eq]
    simp only [List.map_cons, List.foldl_cons]
    exact ih _

theorem runUpdates_responses (l : List (UpdateRequest × Nat)) (app : AppState) :
    ∀ i < l.length, (runUpdates l app).1[i]? =
      some ⟨((l.map Prod.fst).take (i + 1)).foldl applyUpdate app.state⟩ := by
  induction l generalizing app with
  | nil => intro i hi; simp at hi
  | cons p rest ih =>
    obtain ⟨req, ts⟩ := p
    intro i hi
    rw [runUpdates_cons, update_state_eq]
    match i with
    | 0 => simp
    | j + 1 =>
      rw [List.getElem?_cons_succ]
      have hj : j < rest.length := by
        simp only [List.length_cons] at hi
        omega
      rw [ih _ j hj]
      rfl

theorem log_update_ids_invariant {db : LogDb}
    (h1 : (db.rows.map (fun r => r.id)).Pairwise (· < ·))
    (h2 : ∀ r ∈ db.rows, r.id < db.nextId)
    (o n : StateModel) (ts : Nat) :
    ((log_update o n ts db).rows.map (fun r => r.id)).Pairwise (· < ·) ∧
      ∀ r ∈ (log_update o n ts db).rows, r.id < (log_update o n ts db).nextId := by
  constructor
  · simp only [log_update, List.map_append, List.map_cons, List.map_nil]
    rw [List.pairwise_append]
    refine ⟨h1, by simp, ?_⟩
    intro a ha b hb
    simp only [List.mem_singleton] at hb
    subst hb
    simp only [List.mem_map] at ha
    obtain ⟨r, hr, rfl⟩ := ha
    exact h2 r hr
  · intro r hr
    simp only [log_update, List.mem_append, List.mem_singleton] at hr
    rcases hr with hr | rfl
    · exact Nat.lt_succ_of_lt (h2 r hr)
    · exact Nat.lt_succ_self _

theorem runUpdates_ids_invariant (l : List (UpdateRequest × Nat)) (app : AppState)
    (h1 : (app.db.rows.map (fun r => r.id)).Pairwise (· < ·))
    (h2 : ∀ r ∈ app.db.rows, r.id < app.db.nextId) :
    (((runUpdates l app).2.db.rows).map (fun r => r.id)).Pairwise (· < ·) ∧
      ∀ r ∈ (runUpdates l app).2.db.rows, r.id < (runUpdates l app).2.db.nextId := by
  induction l generalizing app with
  | nil => exact ⟨h1, h2⟩
  | cons p rest ih =>
    obtain ⟨req, ts⟩ := p
    rw [runUpdates_cons, update_state_eq]
    obtain ⟨g1, g2⟩ := log_update_ids_invariant h1 h2 app.state (applyUpdate app.state req) ts
    exact ih _ g1 g2

/- ### Claim theorems -/

/-- C1.  Every update replaces exactly the present fields: after any sequence
of valid update requests the final state is the left-to-right merge
(`foldl applyUpdate`) of the requests onto the initial state, and the i-th
POST /update response is the snapshot right after merging request i. -/
theorem update_merge_fold (l : List (UpdateRequest × Nat)) (app : AppState)
    (h : ∀ p ∈ l, validRequest p.1 = true) :
    (runUpdates l app).2.state = (l.map Prod.fst).foldl applyUpdate app.state ∧
      ∀ i < l.length, (runUpdates l app).1[i]? =
        some ⟨((l.map Prod.fst).take (i + 1)).foldl applyUpdate app.state⟩ :=
  ⟨runUpdates_state l app, runUpdates_responses l app⟩

/-- Witness for `update_merge_fold` at a concrete two-request run from the
fresh application state. -/
theorem update_merge_fold_witness :
    (runUpdates ([(⟨some 5, none⟩, 3), (⟨none, some "x"⟩, 7)] :
        List (UpdateRequest × Nat)) initialApp).2.state =
      (([(⟨some 5, none⟩, 3), (⟨none, some "x"⟩, 7)] :
        List (UpdateRequest × Nat)).map Prod.fst).foldl applyUpdate initialApp.state ∧
    (runUpdates ([(⟨some 5, none⟩, 3), (⟨none, some "x"⟩, 7)] :
        List (UpdateRequest × Nat)) initialApp).1[0]? =
      some ⟨((([(⟨some 5, none⟩, 3), (⟨none, some "x"⟩, 7)] :
        List (UpdateRequest × Nat)).map Prod.fst).take 1).foldl applyUpdate
          initialApp.state⟩ :=
  ⟨(update_merge_fold _ initialApp (by decide)).1,
    (update_merge_fold _ initialApp (by decide)).2 0 (by decide)⟩

/-- C2.  A successful update appends exactly one row, whose `old_value`
column is the serialized pre-update snapshot and whose `new_value` column is
the serialized post-update snapshot; deserializing that row (as the log
listing does) yields those snapshots exactly. -/
theorem update_appends_one_entry (req : UpdateRequest) (ts : Nat) (app : AppState)
    (h : validRequest req = true) :
    (update_state req ts app).2.db.rows = app.db.rows ++
        [⟨app.db.nextId, ts, dumpsState app.state,
          dumpsState (applyUpdate app.state req)⟩] ∧
      entryOfRow ⟨app.db.nextId, ts, dumpsState app.state,
          dumpsState (applyUpdate app.state req)⟩ =
        ⟨app.db.nextId, ts, some app.state, some (applyUpdate app.state req)⟩ := by
  refine ⟨rfl, ?_⟩
  simp [entryOfRow, loadsState_dumpsState]

/-- Witness for `update_appends_one_entry` on a concrete request and state. -/
theorem update_appends_one_entry_witness :
    (update_state ⟨some 5, none⟩ 3 initialApp).2.db.rows = initialApp.db.rows ++
        [⟨initialApp.db.nextId, 3, dumpsState initialApp.state,
          dumpsState (applyUpdate initialApp.state ⟨some 5, none⟩)⟩] ∧
      entryOfRow ⟨initialApp.db.nextId, 3, dumpsState initialApp.state,
          dumpsState (applyUpdate initialApp.state ⟨some 5, none⟩)⟩ =
        ⟨initialApp.db.nextId, 3, some initialApp.state,
          some (applyUpdate initialApp.state ⟨some 5, none⟩)⟩ :=
  update_appends_one_entry ⟨some 5, none⟩ 3 initialApp (by decide)

/-- C3.  If the audit-log INSERT fails after the in-memory dict was mutated,
the handler has no try/except: the storage failure escapes as a fatal
(500-equivalent) error, the mutated in-memory state is kept (no rollback) and
no log row exists for it, so state and audit trail diverge. -/
theorem log_failure_no_rollback (secret key : Option String) (req : UpdateRequest)
    (ts : Nat) (app : AppState)
    (hauth : verify_api_key secret key = .allow)
    (hval : validRequest req = true) :
    post_update secret key req ts false app =
      (.serverError, ⟨applyUpdate app.state req, app.db⟩) := by
  unfold post_update
  rw [hauth]
  simp [hval, update_state_logFail]

/-- Witness for `log_failure_no_rollback` with no secret configured. -/
theorem log_failure_no_rollback_witness :
    post_update none none ⟨some 5, none⟩ 3 false initialApp =
      (.serverError, ⟨applyUpdate initialApp.state ⟨some 5, none⟩, initialApp.db⟩) :=
  log_failure_no_rollback none none ⟨some 5, none⟩ 3 initialApp rfl (by decide)

/-- C4.  A request with both fields absent is rejected by the validator with
the 400 validation failure before any mutation: the application state (and
with it the log database) is returned unchanged. -/
theorem empty_update_rejected (secret key : Option String) (req : UpdateRequest)
    (ts : Nat) (logOk : Bool) (app : AppState)
    (hauth : verify_api_key secret key = .allow)
    (hc : req.counter = none) (hm : req.message = none) :
    post_update secret key req ts logOk app = (.clientError 400 validationDetail, app) := by
  unfold post_update
  rw [hauth]
  simp [validRequest, hc, hm]

/-- Witness for `empty_update_rejected` on the empty body. -/
theorem empty_update_rejected_witness :
    post_update none none ⟨none, none⟩ 3 true initialApp =
      (.clientError 400 validationDetail, initialApp) :=
  empty_update_rejected none none ⟨none, none⟩ 3 true initialApp rfl rfl rfl

/-- C5.  The access check is a pure function of the configured secret and the
provided token: no secret means always allow; with a secret, an absent token
is denied as a missing credential, a token different from the secret is
denied as an invalid credential, the matching token is allowed; and any
denial short-circuits POST /update with the denial and no change to state or
log. -/
theorem access_guard_cases (s k : String) (secret key : Option String)
    (req : UpdateRequest) (ts : Nat) (logOk : Bool) (app : AppState) :
    verify_api_key none key = .allow ∧
      verify_api_key (some s) none =
        .deny 401 "API key is required. Please provide X-API-KEY header." ∧
      (k ≠ s → verify_api_key (some s) (some k) = .deny 401 "Invalid API key.") ∧
      verify_api_key (some s) (some s) = .allow ∧
      ∀ st d, verify_api_key secret key = .deny st d →
        post_update secret key req ts logOk app = (.clientError st d, app) := by
  refine ⟨rfl, rfl, ?_, ?_, ?_⟩
  · intro h
    simp [verify_api_key, h]
  · simp [verify_api_key]
  · intro st d h
    unfold post_update
    rw [h]

/-- Witness for `access_guard_cases` at concrete secrets and tokens. -/
theorem access_guard_cases_witness :
    verify_api_key (some "s3cret") (some "wrong") = .deny 401 "Invalid API key." ∧
      post_update (some "s3cret") none ⟨some 5, none⟩ 3 true initialApp =
        (.clientError 401 "API key is required. Please provide X-API-KEY header.",
          initialApp) :=
  ⟨(access_guard_cases "s3cret" "wrong" none none ⟨some 5, none⟩ 3 true
      initialApp).2.2.1 (by decide),
    (access_guard_cases "s3cret" "wrong" (some "s3cret") none ⟨some 5, none⟩ 3 true
      initialApp).2.2.2.2 401 "API key is required. Please provide X-API-KEY header." rfl⟩

/-- C6.  For page ≥ 1 and limit in 1..100, the listing uses
offset = (page-1)*limit, returns at most limit entries, reports the full row
count as total whatever the pagination, and a page past the end yields an
empty list rather than an error. -/
theorem logs_pagination (db : LogDb) (page limit : Nat)
    (hp : 1 ≤ page) (hl1 : 1 ≤ limit) (hl2 : limit ≤ 100) :
    (get_logs db page limit).logs.length ≤ limit ∧
      (get_logs db page limit).total = db.rows.length ∧
      (db.rows.length ≤ (page - 1) * limit → (get_logs db page limit).logs = []) := by
  refine ⟨?_, rfl, ?_⟩
  · simp only [get_logs, List.length_map, List.length_take]
    exact min_le_left _ _
  · intro h
    have hlen : (List.insertionSort tsDesc db.rows).length = db.rows.length :=
      (List.perm_insertionSort tsDesc db.rows).length_eq
    simp only [get_logs]
    rw [List.drop_eq_nil_of_le (by omega)]
    simp

/-- Witness for `logs_pagination`: page 3 of size 10 over a two-row table. -/
theorem logs_pagination_witness :
    (get_logs ⟨[⟨1, 5, "a", "b"⟩, ⟨2, 9, "c", "d"⟩], 3⟩ 3 10).logs.length ≤ 10 ∧
      (get_logs ⟨[⟨1, 5, "a", "b"⟩, ⟨2, 9, "c", "d"⟩], 3⟩ 3 10).total =
        ([⟨1, 5, "a", "b"⟩, ⟨2, 9, "c", "d"⟩] : List LogRow).length ∧
      (([⟨1, 5, "a", "b"⟩, ⟨2, 9, "c", "d"⟩] : List LogRow).length ≤ (3 - 1) * 10 →
        (get_logs ⟨[⟨1, 5, "a", "b"⟩, ⟨2, 9, "c", "d"⟩], 3⟩ 3 10).logs = []) :=
  logs_pagination ⟨[⟨1, 5, "a", "b"⟩, ⟨2, 9, "c", "d"⟩], 3⟩ 3 10 (by decide) (by decide)
    (by decide)

/-- C7.  The entries returned by the log listing are ordered by timestamp
descending (most recent first); tie order among equal timestamps is left
unspecified by SQL, and the sort in the model realizes one admissible order. -/
theorem logs_sorted_desc (db : LogDb) (page limit : Nat) :
    ((get_logs db page limit).logs).Pairwise (fun a b => b.timestamp ≤ a.timestamp) := by
  simp only [get_logs]
  rw [List.pairwise_map]
  exact List.Pairwise.sublist ((List.take_sublist _ _).trans (List.drop_sublist _ _))
    (List.sorted_insertionSort tsDesc db.rows)

/-- C8.  Across all rows ever appended by a run of the application, the
store-assigned ids are unique and strictly increasing in insertion order. -/
theorem log_ids_strictly_increasing (l : List (UpdateRequest × Nat)) :
    (((runUpdates l initialApp).2.db.rows).map (fun r => r.id)).Pairwise (· < ·) :=
  (runUpdates_ids_invariant l initialApp (by simp [initialApp, init_database])
    (by simp [initialApp, init_database])).1

/-- C9.  Database initialization is idempotent: any positive number of
startup calls leaves the same table as one call, and initializing over an
existing table keeps every row. -/
theorem init_database_idempotent (n : Nat) (h : 1 ≤ n) (t : Option LogDb) (db : LogDb) :
    init_many n t = some (init_database t) ∧ (init_database (some db)).rows = db.rows := by
  refine ⟨?_, rfl⟩
  obtain ⟨m, rfl⟩ : ∃ m, n = m + 1 := ⟨n - 1, by omega⟩
  induction m with
  | zero => rfl
  | succ p ih => rw [init_many, ih (by omega)]; rfl

/-- Witness for `init_database_idempotent`: three startups over an existing
one-row table. -/
theorem init_database_idempotent_witness :
    init_many 3 (some ⟨[⟨1, 5, "a", "b"⟩], 2⟩) =
        some (init_database (some ⟨[⟨1, 5, "a", "b"⟩], 2⟩)) ∧
      (init_database (some ⟨[⟨1, 5, "a", "b"⟩], 2⟩)).rows = [⟨1, 5, "a", "b"⟩] :=
  init_database_idempotent 3 (by decide) (some ⟨[⟨1, 5, "a", "b"⟩], 2⟩) ⟨[⟨1, 5, "a", "b"⟩], 2⟩

/-- C10.  The audit-log append stores exactly the serialized snapshots, and
the deserialization in the listing recovers them structurally unchanged: the JSON
serialize-then-parse round trip through the store is the identity on
snapshots. -/
theorem log_roundtrip_exact (o n : StateModel) (ts : Nat) (db : LogDb) :
    (log_update o n ts db).rows =
        db.rows ++ [⟨db.nextId, ts, dumpsState o, dumpsState n⟩] ∧
      entryOfRow ⟨db.nextId, ts, dumpsState o, dumpsState n⟩ =
        ⟨db.nextId, ts, some o, some n⟩ := by
  refine ⟨rfl, ?_⟩
  simp [entryOfRow, loadsState_dumpsState]

end PyApi
